import Mathlib

/-!
Shallow embedding of `src/subsearch.py` (loululou/subsearch), a subdomain
discovery tool: a DNS brute-forcer, four HTTP source adapters (crt.sh,
HackerTarget, AlienVault OTX, urlscan.io), an aggregator and a file writer.

Network and filesystem effects are modelled by passing the observed
response / wordlist contents / resolution outcomes as explicit arguments;
a Python exception escaping a function is modelled as `Except.error ()`.
Python `set` is modelled as `Finset String`; Python string comparison and
Lean's `String` order are both lexicographic by code point.
-/

namespace Subsearch

deriving instance DecidableEq for Except

/-- The ASCII whitespace characters stripped by Python's `str.strip()`
(space, tab, newline, carriage return, vertical tab, form feed). -/
def isPyWhitespace (c : Char) : Bool :=
  c == ' ' || c == '\t' || c == '\n' || c == '\r' || c == Char.ofNat 11 || c == Char.ofNat 12

/-- Python `s.strip()`: drop whitespace from both ends. -/
def pyStrip (s : String) : String :=
  String.mk (((s.data.dropWhile isPyWhitespace).reverse.dropWhile isPyWhitespace).reverse)

/-- Python `s.replace("\n", "")`: remove every newline character. -/
def removeNewlines (s : String) : String :=
  String.mk (s.data.filter (fun c => c != '\n'))

/-- Python `s.split(sep)` for a single-character separator, on the character
list: always returns at least one (possibly empty) field, one more field per
separator occurrence. -/
def splitCharList (sep : Char) : List Char → List (List Char)
  | [] => [[]]
  | c :: cs =>
    match splitCharList sep cs with
    | [] => [[]]
    | g :: gs => if c == sep then [] :: g :: gs else (c :: g) :: gs

/-- Python `s.split(sep)` for a single-character separator. -/
def pySplit (sep : Char) (s : String) : List String :=
  (splitCharList sep s.data).map String.mk

/-- Outcome of one `requests.get` call: either the request raised
`requests.RequestException` (transport failure), or a response with a
status code and an already-decoded body arrived. -/
inductive NetResult (α : Type) where
  | transportError : NetResult α
  | response (status : Nat) (body : α) : NetResult α

/-- Outcome of one `dns.resolver.resolve(subdomain, "A")` call, as classified
by the dnspython API: success, or one of the exceptions `NXDOMAIN`,
`NoAnswer`, `LifetimeTimeout`, or any other resolver exception
(e.g. `dns.resolver.NoNameservers` when every nameserver fails). -/
inductive DnsOutcome where
  | success
  | nxdomain
  | noAnswer
  | lifetimeTimeout
  | otherError
deriving DecidableEq

/-- Embedding of `is_resolvable` (src/subsearch.py:16-21): returns `True` when resolution
succeeds; the `except` clause catches exactly `NXDOMAIN`, `NoAnswer` and
`LifetimeTimeout` and returns `False`; every other exception escapes the
function, modelled as `Except.error ()`. -/
def is_resolvable : DnsOutcome → Except Unit Bool
  | .success => .ok true
  | .nxdomain => .ok false
  | .noAnswer => .ok false
  | .lifetimeTimeout => .ok false
  | .otherError => .error ()

/-- The candidate built from one wordlist line
(src/subsearch.py:27, `line.strip() + "." + domain`). -/
def candidate (domain line : String) : String :=
  pyStrip line ++ "." ++ domain

/-- All candidates built from the wordlist lines, in file order
(src/subsearch.py:27). -/
def candidates (domain : String) (lines : List String) : List String :=
  (lines.map (candidate domain))

/-- Embedding of `brute_force_subdomains` (src/subsearch.py:23-37), given the resolution
oracle and the sequence in which the thread pool completed the submitted
checks: `completed` is the candidate list in `as_completed` order (any
permutation of `candidates domain lines`), and the accumulated result keeps
exactly those candidates whose check returned `True`. -/
def brute_force_subdomains (resolve : String → Bool) (completed : List String) : List String :=
  completed.filter resolve

/-- One entry of the crt.sh JSON array; `name_value` is `none` when the key
is missing (Python `entry["name_value"]` would raise `KeyError`). -/
structure CrtEntry where
  name_value : Option String
deriving DecidableEq

/-- The loop body of `crtsh_enum` (src/subsearch.py:47-49): iterate the
entries in order, adding `entry["name_value"].replace("\n", "").strip()` to
the set; a missing `name_value` key raises `KeyError`, modelled as
`Except.error ()`. -/
def crtshAdd : List CrtEntry → Finset String → Except Unit (Finset String)
  | [], acc => .ok acc
  | e :: es, acc =>
    match e.name_value with
    | none => .error ()
    | some v => crtshAdd es (insert (pyStrip (removeNewlines v)) acc)

/-- Embedding of `crtsh_enum` (src/subsearch.py:39-53): on transport failure print and
return the empty set; on status 200 parse the JSON array; on any other
status fall through to the empty set. -/
def crtsh_enum : NetResult (List CrtEntry) → Except Unit (Finset String)
  | .transportError => .ok ∅
  | .response status body =>
    if status = 200 then crtshAdd body ∅ else .ok ∅

/-- The loop body of `hackertarget_enum` (src/subsearch.py:62-66): split each
line on commas and add the first field. The guard `if len(parts) > 0` is kept
as in the source; Python's `split` never returns an empty list, so the guard
always holds. -/
def hackertargetAdd (results : List String) : Finset String :=
  results.foldl (fun acc result =>
    let parts := pySplit ',' result
    if parts.length > 0 then insert (parts.headD "") acc else acc) ∅

/-- Embedding of `hackertarget_enum` (src/subsearch.py:55-70): on status 200 split the
body text on newlines and process each line; otherwise the empty set. -/
def hackertarget_enum : NetResult String → Finset String
  | .transportError => ∅
  | .response status body =>
    if status = 200 then hackertargetAdd (pySplit '\n' body) else ∅

/-- One entry of the AlienVault `passive_dns` array; `hostname` is `none`
when the key is missing (`entry["hostname"]` would raise `KeyError`). -/
structure AVEntry where
  hostname : Option String
deriving DecidableEq

/-- The AlienVault OTX response body: `passive_dns` is `none` when the key
is absent (`json_data.get("passive_dns", [])` then yields `[]`). -/
structure AVBody where
  passive_dns : Option (List AVEntry)
deriving DecidableEq

/-- The loop body of `alienvault_enum` (src/subsearch.py:80-81): add each
entry's `hostname`; a missing key raises `KeyError` (`Except.error ()`). -/
def alienvaultAdd : List AVEntry → Finset String → Except Unit (Finset String)
  | [], acc => .ok acc
  | e :: es, acc =>
    match e.hostname with
    | none => .error ()
    | some h => alienvaultAdd es (insert h acc)

/-- Embedding of `alienvault_enum` (src/subsearch.py:72-85). -/
def alienvault_enum : NetResult AVBody → Except Unit (Finset String)
  | .transportError => .ok ∅
  | .response status body =>
    if status = 200 then alienvaultAdd (body.passive_dns.getD []) ∅ else .ok ∅

/-- The nested `page` object of a urlscan.io result; `domain` is `none` when
absent (`.get("domain", "")` then yields `""`). -/
structure USPage where
  domain : Option String
deriving DecidableEq

/-- One entry of the urlscan.io `results` array; `page` is `none` when
absent (`.get("page", {})` then yields `{}`). -/
structure USEntry where
  page : Option USPage
deriving DecidableEq

/-- The urlscan.io response body: `results` is `none` when the key is absent
(`json_data.get("results", [])` then yields `[]`). -/
structure USBody where
  results : Option (List USEntry)
deriving DecidableEq

/-- The `page_domain` a urlscan.io result entry evaluates to
(src/subsearch.py:96, `result.get("page", {}).get("domain", "")`). -/
def usPageDomain (e : USEntry) : String :=
  (e.page.bind USPage.domain).getD ""

/-- The loop of `urlscan_enum` (src/subsearch.py:95-98) from an arbitrary
accumulator: add `page_domain` when it is truthy (a non-empty string). -/
def urlscanAddFrom (results : List USEntry) (acc : Finset String) : Finset String :=
  results.foldl (fun acc result =>
    let page_domain := usPageDomain result
    if page_domain ≠ "" then insert page_domain acc else acc) acc

/-- The loop body of `urlscan_enum` (src/subsearch.py:95-98), started from
the empty set as in the source. -/
def urlscanAdd (results : List USEntry) : Finset String :=
  urlscanAddFrom results ∅

/-- Embedding of `urlscan_enum` (src/subsearch.py:87-102). -/
def urlscan_enum : NetResult USBody → Finset String
  | .transportError => ∅
  | .response status body =>
    if status = 200 then urlscanAdd (body.results.getD []) else ∅

/-- Modelled from the spec's words, for comparison with `urlscan_enum`:
"iterate array at key `results` (absent → empty list); for each entry read
nested `page.domain` (absent → skip)" — every present `page.domain` is
taken, with no further condition. -/
def urlscanClaimed : NetResult USBody → Finset String
  | .transportError => ∅
  | .response status body =>
    if status = 200 then
      (body.results.getD []).foldl (fun acc result =>
        match result.page.bind USPage.domain with
        | none => acc
        | some d => insert d acc) ∅
    else ∅

/-- Embedding of `enumerate_subdomains` (src/subsearch.py:104-134): starting from the
empty set, union in the brute-force list, then each adapter's list, in the
fixed order brute force, crt.sh, HackerTarget, AlienVault, urlscan.io. An
exception escaping `crtsh_enum` or `alienvault_enum` aborts the run at that
point (the later phases never execute). `bf` is the list returned by
`brute_force_subdomains`; each adapter's observed response is an argument. -/
def enumerate_subdomains (bf : List String)
    (crt : NetResult (List CrtEntry)) (ht : NetResult String)
    (av : NetResult AVBody) (us : NetResult USBody) :
    Except Unit (Finset String) :=
  match crtsh_enum crt with
  | .error e => .error e
  | .ok c =>
    match alienvault_enum av with
    | .error e => .error e
    | .ok a =>
      .ok (((((∅ ∪ bf.toFinset) ∪ c) ∪ hackertarget_enum ht) ∪ a) ∪ urlscan_enum us)

/-- The lines `save_results` writes, in order (src/subsearch.py:138,
`sorted(subdomains)`). -/
def sortedSubdomains (subdomains : Finset String) : List String :=
  subdomains.sort (· ≤ ·)

/-- Embedding of `save_results` (src/subsearch.py:136-140): the full text written to the
(created or truncated) output file — each hostname of the sorted set
followed by a newline. -/
def save_results (subdomains : Finset String) : String :=
  String.join ((sortedSubdomains subdomains).map (fun sub => sub ++ "\n"))

/-! ## Helper lemmas -/

/-- A non-200 status makes `crtsh_enum` fall through to the empty set. -/
lemma crtsh_enum_non200 (s : Nat) (body : List CrtEntry) (h : s ≠ 200) :
    crtsh_enum (.response s body) = .ok ∅ := by
  simp [crtsh_enum, h]

/-- A non-200 status makes `alienvault_enum` fall through to the empty set. -/
lemma alienvault_enum_non200 (s : Nat) (body : AVBody) (h : s ≠ 200) :
    alienvault_enum (.response s body) = .ok ∅ := by
  simp [alienvault_enum, h]

/-- A non-200 status makes `hackertarget_enum` fall through to the empty set. -/
lemma hackertarget_enum_non200 (s : Nat) (body : String) (h : s ≠ 200) :
    hackertarget_enum (.response s body) = ∅ := by
  simp [hackertarget_enum, h]

/-- A non-200 status makes `urlscan_enum` fall through to the empty set. -/
lemma urlscan_enum_non200 (s : Nat) (body : USBody) (h : s ≠ 200) :
    urlscan_enum (.response s body) = ∅ := by
  simp [urlscan_enum, h]

/-- An entry with a missing `name_value` key makes the crt.sh loop raise,
wherever it sits in the list. -/
lemma crtshAdd_error (es : List CrtEntry) (e : CrtEntry) (he : e ∈ es)
    (hn : e.name_value = none) : ∀ acc, crtshAdd es acc = .error () := by
  induction es with
  | nil => cases he
  | cons f fs ih =>
    intro acc
    rcases List.mem_cons.mp he with rfl | hmem
    · simp [crtshAdd, hn]
    · cases hf : f.name_value with
      | none => simp [crtshAdd, hf]
      | some v => simp [crtshAdd, hf, ih hmem]

/-- An entry with a missing `hostname` key makes the AlienVault loop raise,
wherever it sits in the list. -/
lemma alienvaultAdd_error (es : List AVEntry) (e : AVEntry) (he : e ∈ es)
    (hn : e.hostname = none) : ∀ acc, alienvaultAdd es acc = .error () := by
  induction es with
  | nil => cases he
  | cons f fs ih =>
    intro acc
    rcases List.mem_cons.mp he with rfl | hmem
    · simp [alienvaultAdd, hn]
    · cases hf : f.hostname with
      | none => simp [alienvaultAdd, hf]
      | some v => simp [alienvaultAdd, hf, ih hmem]

/-- On a list of entries that all carry `name_value`, the crt.sh loop
succeeds and adds the stripped values to the accumulator. -/
lemma crtshAdd_map (vs : List String) :
    ∀ acc, crtshAdd (vs.map (fun v => CrtEntry.mk (some v))) acc =
      .ok (acc ∪ (vs.map (fun v => pyStrip (removeNewlines v))).toFinset) := by
  induction vs with
  | nil => intro acc; simp [crtshAdd]
  | cons v vs ih =>
    intro acc
    simp only [List.map_cons, crtshAdd, ih, List.toFinset_cons,
      Finset.union_insert, Finset.insert_union]

/-- Membership in the urlscan loop run from an arbitrary accumulator. -/
lemma urlscanAddFrom_mem (results : List USEntry) :
    ∀ (acc : Finset String) (x : String),
      x ∈ urlscanAddFrom results acc ↔
        x ∈ acc ∨ (x ≠ "" ∧ ∃ e ∈ results, usPageDomain e = x) := by
  induction results with
  | nil => intro acc x; simp [urlscanAddFrom]
  | cons r rs ih =>
    intro acc x
    have hstep : urlscanAddFrom (r :: rs) acc =
        urlscanAddFrom rs
          (if usPageDomain r ≠ "" then insert (usPageDomain r) acc else acc) := rfl
    rw [hstep, ih]
    by_cases hr : usPageDomain r = ""
    · simp only [hr, ne_eq, not_true_eq_false, if_neg, List.mem_cons, not_false_eq_true]
      constructor
      · rintro (hx | hx)
        · exact Or.inl hx
        · exact Or.inr ⟨hx.1, hx.2.imp (fun e he => ⟨Or.inr he.1, he.2⟩)⟩
      · rintro (hx | ⟨hne, e, he | he, hd⟩)
        · exact Or.inl hx
        · exact absurd (hd.symm.trans (by rw [he, hr])) hne
        · exact Or.inr ⟨hne, e, he, hd⟩
    · simp only [hr, ne_eq, not_false_eq_true, if_pos, Finset.mem_insert, List.mem_cons]
      constructor
      · rintro ((rfl | hx) | hx)
        · exact Or.inr ⟨hr, r, Or.inl rfl, rfl⟩
        · exact Or.inl hx
        · exact Or.inr ⟨hx.1, hx.2.imp (fun e he => ⟨Or.inr he.1, he.2⟩)⟩
      · rintro (hx | ⟨hne, e, he | he, hd⟩)
        · exact Or.inl (Or.inr hx)
        · exact Or.inl (Or.inl (he ▸ hd.symm))
        · exact Or.inr ⟨hne, e, he, hd⟩

/-- A successful aggregator run contains every brute-force find. -/
lemma enumerate_ok_superset_bf (bf : List String)
    (crt : NetResult (List CrtEntry)) (ht : NetResult String)
    (av : NetResult AVBody) (us : NetResult USBody) (s : Finset String)
    (h : enumerate_subdomains bf crt ht av us = .ok s) :
    bf.toFinset ⊆ s := by
  unfold enumerate_subdomains at h
  cases hcrt : crtsh_enum crt with
  | error e => rw [hcrt] at h; cases h
  | ok c =>
    rw [hcrt] at h
    cases hav : alienvault_enum av with
    | error e => rw [hav] at h; cases h
    | ok a =>
      rw [hav] at h
      cases h
      intro x hx
      simp only [Finset.mem_union]
      tauto

/-! ## Claims -/

/-- C1: the HackerTarget adapter splits the 200 body on newlines, splits each
line on commas and takes the first field, but it does NOT skip entirely
empty lines: `"".split(",")` is `[""]`, so the guard `len(parts) > 0` always
holds and the trailing empty line of the example body contributes the empty
string. The spec's example body therefore yields
`{"a.example.com", "b.example.com", ""}`, not `{"a.example.com",
"b.example.com"}`. -/
theorem c1_hackertarget_empty_line_bug :
    hackertarget_enum
        (.response 200 "a.example.com,1.2.3.4\nb.example.com,5.6.7.8\n") =
      {"a.example.com", "b.example.com", ""} ∧
    "" ∈ hackertarget_enum
        (.response 200 "a.example.com,1.2.3.4\nb.example.com,5.6.7.8\n") ∧
    hackertarget_enum
        (.response 200 "a.example.com,1.2.3.4\nb.example.com,5.6.7.8\n") ≠
      {"a.example.com", "b.example.com"} := by
  refine ⟨by decide, by decide, ?_⟩
  intro h
  have : ("" : String) ∈ ({"a.example.com", "b.example.com"} : Finset String) :=
    h ▸ (by decide : ("" : String) ∈ hackertarget_enum
      (.response 200 "a.example.com,1.2.3.4\nb.example.com,5.6.7.8\n"))
  revert this
  decide

/-- C2 counterexample: `is_resolvable` catches only `NXDOMAIN`, `NoAnswer`
and `LifetimeTimeout`; any other resolver exception (e.g. `NoNameservers`)
escapes instead of being turned into `false`, contradicting "never
propagates an exception to its caller". -/
theorem c2_resolver_counterexample :
    is_resolvable DnsOutcome.otherError = .error () ∧
    is_resolvable DnsOutcome.otherError ≠ .ok false := by
  exact ⟨rfl, by decide⟩

/-- C2 amended: `is_resolvable` returns `true` when A-record resolution
succeeds and `false` when it fails with `NXDOMAIN`, `NoAnswer` or
`LifetimeTimeout`; any other resolver exception propagates to the caller. -/
theorem c2_resolver_amended :
    is_resolvable DnsOutcome.success = .ok true ∧
    is_resolvable DnsOutcome.nxdomain = .ok false ∧
    is_resolvable DnsOutcome.noAnswer = .ok false ∧
    is_resolvable DnsOutcome.lifetimeTimeout = .ok false ∧
    is_resolvable DnsOutcome.otherError = .error () := by
  decide

/-- C3 counterexample: a 200 response whose entry misses the expected field
(`name_value` for crt.sh, `hostname` for AlienVault) does not yield the
empty set — the `KeyError` escapes the adapter, since only
`requests.RequestException` is caught. -/
theorem c3_adapters_counterexample :
    crtsh_enum (.response 200 [CrtEntry.mk none]) = .error () ∧
    crtsh_enum (.response 200 [CrtEntry.mk none]) ≠ .ok ∅ ∧
    alienvault_enum (.response 200 (AVBody.mk (some [AVEntry.mk none]))) = .error () ∧
    alienvault_enum (.response 200 (AVBody.mk (some [AVEntry.mk none]))) ≠ .ok ∅ := by
  exact ⟨rfl, by decide, rfl, by decide⟩

/-- C3 amended: every adapter returns the empty set on transport failure
(`requests.RequestException`) and on any non-200 status, never raising in
those cases; but a 200 response entry missing an expected field
(`name_value` for crt.sh, `hostname` for AlienVault) raises an uncaught
`KeyError` to the caller instead of yielding the empty set. -/
theorem c3_adapters_amended :
    (crtsh_enum .transportError = .ok ∅) ∧
    (∀ (s : Nat) (body : List CrtEntry), s ≠ 200 →
      crtsh_enum (.response s body) = .ok ∅) ∧
    (∀ (body : List CrtEntry) (e : CrtEntry), e ∈ body → e.name_value = none →
      crtsh_enum (.response 200 body) = .error ()) ∧
    (alienvault_enum .transportError = .ok ∅) ∧
    (∀ (s : Nat) (body : AVBody), s ≠ 200 →
      alienvault_enum (.response s body) = .ok ∅) ∧
    (∀ (body : AVBody) (e : AVEntry), e ∈ body.passive_dns.getD [] →
      e.hostname = none → alienvault_enum (.response 200 body) = .error ()) ∧
    (hackertarget_enum .transportError = ∅) ∧
    (∀ (s : Nat) (body : String), s ≠ 200 →
      hackertarget_enum (.response s body) = ∅) ∧
    (urlscan_enum .transportError = ∅) ∧
    (∀ (s : Nat) (body : USBody), s ≠ 200 →
      urlscan_enum (.response s body) = ∅) := by
  refine ⟨rfl, crtsh_enum_non200, ?_, rfl, alienvault_enum_non200, ?_, rfl,
    hackertarget_enum_non200, rfl, urlscan_enum_non200⟩
  · intro body e he hn
    simpa [crtsh_enum] using crtshAdd_error body e he hn ∅
  · intro body e he hn
    simpa [alienvault_enum] using alienvaultAdd_error _ e he hn ∅

/-- C3 witness: the amended statement at concrete inputs — a 404 crt.sh
response and a transport failure yield the empty set; a 200 crt.sh response
whose only entry misses `name_value` raises. -/
theorem c3_adapters_amended_witness :
    crtsh_enum (.response 404 []) = .ok ∅ ∧
    alienvault_enum (.response 500 (AVBody.mk none)) = .ok ∅ ∧
    crtsh_enum (.response 200 [CrtEntry.mk none]) = .error () ∧
    hackertarget_enum (.response 403 "x") = ∅ ∧
    urlscan_enum (.response 429 (USBody.mk none)) = ∅ :=
  ⟨c3_adapters_amended.2.1 404 [] (by decide),
   c3_adapters_amended.2.2.2.2.1 500 (AVBody.mk none) (by decide),
   c3_adapters_amended.2.2.1 [CrtEntry.mk none] (CrtEntry.mk none)
     (by simp) rfl,
   c3_adapters_amended.2.2.2.2.2.2.2.1 403 "x" (by decide),
   c3_adapters_amended.2.2.2.2.2.2.2.2.2 429 (USBody.mk none) (by decide)⟩

/-- C4: whatever order the 10-worker pool completes the checks in (any
permutation `completed` of the candidate list), the brute-force enumerator
issues one check per wordlist line — `completed` has exactly `N` elements —
and returns exactly the candidates `<stripped line>.<domain>` for which the
resolver returned `true`. -/
theorem c4_brute_force_checks (domain : String) (lines : List String)
    (resolve : String → Bool) (completed : List String)
    (h : completed.Perm (candidates domain lines)) :
    completed.length = lines.length ∧
      (brute_force_subdomains resolve completed).Perm
        ((candidates domain lines).filter resolve) := by
  constructor
  · rw [h.length_eq, candidates, List.length_map]
  · exact h.filter resolve

/-- C4 witness: a two-line wordlist checked in reversed completion order. -/
theorem c4_brute_force_checks_witness :
    (["mail.example.com", "www.example.com"] : List String).length =
        (["www", "mail"] : List String).length ∧
      (brute_force_subdomains (fun s => s == "www.example.com")
          ["mail.example.com", "www.example.com"]).Perm
        ((candidates "example.com" ["www", "mail"]).filter
          (fun s => s == "www.example.com")) :=
  c4_brute_force_checks "example.com" ["www", "mail"]
    (fun s => s == "www.example.com") ["mail.example.com", "www.example.com"]
    (by decide)

/-- C5: the writer emits the hostnames of the result set one per line in
strict lexicographic ascending order; the written lines are set-equal to
the in-memory result set, and the file content is exactly those lines each
terminated by a newline. -/
theorem c5_writer_sorted (s : Finset String) :
    List.Sorted (· < ·) (sortedSubdomains s) ∧
      (sortedSubdomains s).toFinset = s ∧
      save_results s = String.join ((sortedSubdomains s).map (fun sub => sub ++ "\n")) :=
  ⟨Finset.sort_sorted_lt s, Finset.sort_toFinset _ s, rfl⟩

/-- C6: on a 200 crt.sh response the adapter takes each entry's `name_value`,
removes every newline character and strips surrounding whitespace; the
response `[{"name_value": "a.example.com\n"}]` yields exactly
`{"a.example.com"}`. -/
theorem c6_crtsh_strip :
    (∀ vs : List String,
        crtsh_enum (.response 200 (vs.map (fun v => CrtEntry.mk (some v)))) =
          .ok ((vs.map (fun v => pyStrip (removeNewlines v))).toFinset)) ∧
      crtsh_enum (.response 200 [CrtEntry.mk (some "a.example.com\n")]) =
        .ok {"a.example.com"} := by
  constructor
  · intro vs
    show crtshAdd _ ∅ = _
    rw [crtshAdd_map, Finset.empty_union]
  · show crtshAdd _ ∅ = _
    decide

/-- C7 counterexample: a `results` entry whose `page.domain` is present but
equal to the empty string is skipped by the code (`if page_domain:` is
falsy on `""`), while the claim's extraction rule — take `page.domain`
whenever present, skip only when absent — would keep it. -/
theorem c7_urlscan_counterexample :
    urlscan_enum (.response 200 (USBody.mk (some [USEntry.mk (some (USPage.mk (some "")))]))) = ∅ ∧
    urlscanClaimed (.response 200 (USBody.mk (some [USEntry.mk (some (USPage.mk (some "")))]))) = {""} ∧
    urlscan_enum (.response 200 (USBody.mk (some [USEntry.mk (some (USPage.mk (some "")))]))) ≠
      urlscanClaimed (.response 200 (USBody.mk (some [USEntry.mk (some (USPage.mk (some "")))]))) := by
  refine ⟨by decide, by decide, ?_⟩
  intro h
  rw [(by decide : urlscan_enum (.response 200 (USBody.mk (some [USEntry.mk (some (USPage.mk (some "")))]))) = ∅),
    (by decide : urlscanClaimed (.response 200 (USBody.mk (some [USEntry.mk (some (USPage.mk (some "")))]))) = {""})] at h
  revert h
  decide

/-- C7 amended: on a 200 urlscan.io response the adapter iterates the array
at key `results` (absent key yields the empty set) and keeps each entry's
nested `page.domain`, skipping entries where it is absent or the empty
string; the example response `{"results": [{"page": {"domain":
"a.example.com"}}]}` yields exactly `{"a.example.com"}`. -/
theorem c7_urlscan_amended :
    (∀ (results : List USEntry) (x : String),
        x ∈ urlscan_enum (.response 200 (USBody.mk (some results))) ↔
          x ≠ "" ∧ ∃ e ∈ results, usPageDomain e = x) ∧
      urlscan_enum (.response 200 (USBody.mk none)) = ∅ ∧
      urlscan_enum (.response 200
          (USBody.mk (some [USEntry.mk (some (USPage.mk (some "a.example.com")))]))) =
        {"a.example.com"} := by
  refine ⟨?_, by decide, by decide⟩
  intro results x
  show x ∈ urlscanAddFrom results ∅ ↔ _
  rw [urlscanAddFrom_mem]
  simp

/-- C8: an adapter that receives a non-200 status contributes the empty set
and the aggregator still completes, returning the union of what the other
phases found — stated for each of the four adapters in turn, assuming the
remaining fallible adapters return normally. -/
theorem c8_non200_isolated :
    (∀ (bf : List String) (s : Nat) (body : List CrtEntry) (ht : NetResult String)
        (av : NetResult AVBody) (us : NetResult USBody) (a : Finset String),
        s ≠ 200 → alienvault_enum av = .ok a →
        enumerate_subdomains bf (.response s body) ht av us =
          .ok (bf.toFinset ∪ hackertarget_enum ht ∪ a ∪ urlscan_enum us)) ∧
    (∀ (bf : List String) (crt : NetResult (List CrtEntry)) (s : Nat) (body : String)
        (av : NetResult AVBody) (us : NetResult USBody) (c a : Finset String),
        s ≠ 200 → crtsh_enum crt = .ok c → alienvault_enum av = .ok a →
        enumerate_subdomains bf crt (.response s body) av us =
          .ok (bf.toFinset ∪ c ∪ a ∪ urlscan_enum us)) ∧
    (∀ (bf : List String) (crt : NetResult (List CrtEntry)) (ht : NetResult String)
        (s : Nat) (body : AVBody) (us : NetResult USBody) (c : Finset String),
        s ≠ 200 → crtsh_enum crt = .ok c →
        enumerate_subdomains bf crt ht (.response s body) us =
          .ok (bf.toFinset ∪ c ∪ hackertarget_enum ht ∪ urlscan_enum us)) ∧
    (∀ (bf : List String) (crt : NetResult (List CrtEntry)) (ht : NetResult String)
        (av : NetResult AVBody) (s : Nat) (body : USBody) (c a : Finset String),
        s ≠ 200 → crtsh_enum crt = .ok c → alienvault_enum av = .ok a →
        enumerate_subdomains bf crt ht av (.response s body) =
          .ok (bf.toFinset ∪ c ∪ hackertarget_enum ht ∪ a)) := by
  refine ⟨?_, ?_, ?_, ?_⟩
  · intro bf s body ht av us a hs hav
    simp [enumerate_subdomains, crtsh_enum_non200 s body hs, hav]
  · intro bf crt s body av us c a hs hcrt hav
    simp [enumerate_subdomains, hcrt, hav, hackertarget_enum_non200 s body hs]
  · intro bf crt ht s body us c hs hcrt
    simp [enumerate_subdomains, hcrt, alienvault_enum_non200 s body hs]
  · intro bf crt ht av s body c a hs hcrt hav
    simp [enumerate_subdomains, hcrt, hav, urlscan_enum_non200 s body hs]

/-- C8 witness: a run where crt.sh answers 503 — the run completes and
returns the union of the remaining phases' contributions. -/
theorem c8_non200_isolated_witness :
    enumerate_subdomains ["x.example.com"] (.response 503 []) .transportError
        (.response 200 (AVBody.mk (some []))) .transportError =
      .ok ((["x.example.com"] : List String).toFinset ∪
        hackertarget_enum .transportError ∪ ∅ ∪ urlscan_enum .transportError) :=
  c8_non200_isolated.1 ["x.example.com"] 503 [] .transportError
    (.response 200 (AVBody.mk (some []))) .transportError ∅ (by decide) rfl

/-- C9: a successful aggregator run yields a set with no duplicate
exact-string hostname: the sorted listing of the final set has no
duplicates, and a hostname contributed by the brute-force phase appears in
it exactly once even when other sources contributed it too. -/
theorem c9_no_duplicates (bf : List String)
    (crt : NetResult (List CrtEntry)) (ht : NetResult String)
    (av : NetResult AVBody) (us : NetResult USBody) (s : Finset String)
    (x : String) (h : enumerate_subdomains bf crt ht av us = .ok s)
    (hx : x ∈ bf) :
    (sortedSubdomains s).Nodup ∧ (sortedSubdomains s).count x = 1 := by
  refine ⟨Finset.sort_nodup _ s, ?_⟩
  have hs : x ∈ s :=
    enumerate_ok_superset_bf bf crt ht av us s h (List.mem_toFinset.mpr hx)
  exact List.count_eq_one_of_mem (Finset.sort_nodup _ s)
    ((Finset.mem_sort _).mpr hs)

/-- C9 witness: a brute-force list containing the same hostname twice, all
adapters failing at transport level; the final set lists it exactly once. -/
theorem c9_no_duplicates_witness :
    (sortedSubdomains {"dup.example.com"}).Nodup ∧
      (sortedSubdomains {"dup.example.com"}).count "dup.example.com" = 1 :=
  c9_no_duplicates ["dup.example.com", "dup.example.com"] .transportError
    .transportError .transportError .transportError {"dup.example.com"}
    "dup.example.com" (by decide) (by decide)

/-- C10: a wordlist line that is blank or whitespace-only is not skipped:
its stripped form is the empty word, the candidate built from it is
`"." ++ domain`, and that candidate is among the checks submitted to the
resolver (it occurs in every completion order of the pool). -/
theorem c10_blank_line_candidate (domain : String) (lines : List String)
    (l : String) (completed : List String) (hl : l ∈ lines)
    (hstrip : pyStrip l = "") (hperm : completed.Perm (candidates domain lines)) :
    ("." ++ domain) ∈ candidates domain lines ∧ ("." ++ domain) ∈ completed := by
  have hc : candidate domain l = "." ++ domain := by
    unfold candidate
    rw [hstrip]
    rfl
  have hmem : ("." ++ domain) ∈ candidates domain lines := by
    unfold candidates
    rw [← hc]
    exact List.mem_map_of_mem _ hl
  exact ⟨hmem, hperm.mem_iff.mpr hmem⟩

/-- C10 witness: a wordlist with the whitespace-only line `"  "` produces
and checks the candidate `".example.com"`. -/
theorem c10_blank_line_candidate_witness :
    ("." ++ "example.com") ∈ candidates "example.com" ["www", "  "] ∧
      ("." ++ "example.com") ∈ ["www.example.com", ".example.com"] :=
  c10_blank_line_candidate "example.com" ["www", "  "] "  "
    ["www.example.com", ".example.com"] (by decide) (by decide) (by decide)

end Subsearch
